import Mathlib

/-!
Verification of the TF-M cross-core mailbox engine
(`secure_fw/partitions/ns_agent_mailbox/tfm_spe_mailbox.c`) and the
connection lifecycle manager (`secure_fw/spm/core/psa_connection_api.c`),
as a shallow embedding in Lean 4.

Machine integers are modelled as `Nat`/`Int` with explicit reductions
modulo `2^w` where C wrap-around matters.  Arrays living in shared memory
are modelled as total functions `Nat → _`; the code's own bounds checks
and panics are modelled explicitly (`Option`, `none` = `psa_panic`).
-/

namespace TFM

/-! ### Constants (values from the TF-M headers used by the sources) -/

/-- `PSA_MAX_IOVEC` from `psa/client.h`. -/
def PSA_MAX_IOVEC : Nat := 4

/-- `PSA_SUCCESS` from `psa/error.h`. -/
def PSA_SUCCESS : Int := 0

def PSA_ERROR_PROGRAMMER_ERROR : Int := -129
def PSA_ERROR_CONNECTION_REFUSED : Int := -130
def PSA_ERROR_CONNECTION_BUSY : Int := -131
def PSA_ERROR_GENERIC_ERROR : Int := -132
def PSA_ERROR_INVALID_ARGUMENT : Int := -135

/-- `PSA_NULL_HANDLE` from `psa/client.h`. -/
def PSA_NULL_HANDLE : Int := 0

/-- Mailbox return codes from `tfm_mailbox.h` (`INT32_MIN + k`). -/
def MAILBOX_SUCCESS : Int := 0
def MAILBOX_QUEUE_FULL : Int := -2147483648 + 1
def MAILBOX_INVAL_PARAMS : Int := -2147483648 + 2
def MAILBOX_NO_PERMS : Int := -2147483648 + 3
def MAILBOX_NO_PEND_EVENT : Int := -2147483648 + 4
def MAILBOX_CHAN_BUSY : Int := -2147483648 + 5
def MAILBOX_CALLBACK_REG_ERROR : Int := -2147483648 + 6

/-- Mailbox call types from `tfm_mailbox.h`. -/
def MAILBOX_PSA_FRAMEWORK_VERSION : Nat := 0x1
def MAILBOX_PSA_VERSION : Nat := 0x2
def MAILBOX_PSA_CONNECT : Nat := 0x3
def MAILBOX_PSA_CALL : Nat := 0x4
def MAILBOX_PSA_CLOSE : Nat := 0x5

/-- `MAILBOX_MSG_NULL_HANDLE` (`mailbox_msg_handle_t` is `int32_t`). -/
def MAILBOX_MSG_NULL_HANDLE : Int := 0

/-- Width of `mailbox_queue_status_t` (`uint32_t`). -/
def STATUS_BITS : Nat := 32

def MASK32 : Nat := 2 ^ 32 - 1

/-! ### Data model

`psa_invec` / `psa_outvec` descriptors: a base pointer and a length.
Pointers are modelled as `Nat` addresses, with `0` playing `NULL`. -/

structure psa_invec where
  base : Nat
  len : Nat
  deriving DecidableEq, Repr

structure psa_outvec where
  base : Nat
  len : Nat
  deriving DecidableEq, Repr

/-- `psa_call` parameters of a mailbox message (`struct psa_client_params_t`,
the union flattened into one record; each call type reads only its own
fields). `in_vec`/`out_vec` are NS-side array base addresses (0 = NULL). -/
structure psa_client_params_t where
  psa_call_type : Int
  psa_call_in_vec : Nat
  psa_call_in_len : Nat
  psa_call_out_vec : Nat
  psa_call_out_len : Nat
  psa_call_handle : Int
  psa_version_sid : Nat
  psa_connect_sid : Nat
  psa_connect_version : Nat
  psa_close_handle : Int
  deriving DecidableEq, Repr

/-- `struct mailbox_msg_t`: call type tag, parameters, client id. -/
structure mailbox_msg_t where
  call_type : Nat
  params : psa_client_params_t
  client_id : Int
  deriving DecidableEq, Repr

/-- One secure-side queue entry (`struct secure_mailbox_slot_t`). -/
structure secure_mailbox_slot_t where
  msg : mailbox_msg_t
  msg_handle : Int
  ns_slot_idx : Nat
  deriving DecidableEq, Repr

/-- One NS-side slot (`struct ns_mailbox_slot_t`): the deposited message
and the reply word written back by the secure side. -/
structure ns_mailbox_slot_t where
  msg : mailbox_msg_t
  reply_return_val : Nat
  deriving DecidableEq, Repr

/-- Per-slot staging entry (`struct vectors` in `tfm_spe_mailbox.c`). -/
structure vectors_t where
  in_vec : Nat → psa_invec
  out_vec : Nat → psa_outvec
  original_out_vec : Nat
  out_len : Nat
  in_use : Bool

/-- The whole mutable state touched by `tfm_spe_mailbox.c`:
`spe_mailbox_queue` (flattened), the `vectors` staging array, and the
NS-side memory regions holding the callers' descriptor arrays. -/
structure MailboxState where
  /-- `spe_mailbox_queue.empty_slots` (secure-owned free bitmask). -/
  empty_slots : Nat
  /-- `spe_mailbox_queue.queue[...]`. -/
  queue : Nat → secure_mailbox_slot_t
  /-- `spe_mailbox_queue.ns_status->pend_slots` (NS-owned pending bitmask). -/
  pend_slots : Nat
  /-- `spe_mailbox_queue.ns_status->replied_slots`. -/
  replied_slots : Nat
  /-- `spe_mailbox_queue.ns_slots[...]` (NS-side slots). -/
  ns_slots : Nat → ns_mailbox_slot_t
  /-- `spe_mailbox_queue.ns_slot_count`. -/
  ns_slot_count : Nat
  /-- the `vectors[NUM_MAILBOX_QUEUE_SLOT]` staging array. -/
  vectors : Nat → vectors_t
  /-- NS memory holding `psa_invec` arrays (address → descriptor). -/
  inMem : Nat → psa_invec
  /-- NS memory holding `psa_outvec` arrays (address → descriptor);
  `original_out_vec` write-back targets this region. -/
  outMem : Nat → psa_outvec

/-! ### Slot-table bitmask operations (lines 46-88 of `tfm_spe_mailbox.c`)

Throughout, `N` stands for the compile-time capacity
`NUM_MAILBOX_QUEUE_SLOT`. -/

/-- Clear bit `i` of a `Nat` (the effect of `x &= ~(1 << i)` on `uint32_t`,
exact for any value). -/
def clearBit (x : Nat) (i : Nat) : Nat :=
  if x.testBit i then x - 2 ^ i else x

/-- `set_spe_queue_empty_status`. -/
def set_spe_queue_empty_status (N : Nat) (s : MailboxState) (idx : Nat) :
    MailboxState :=
  if idx < N then { s with empty_slots := s.empty_slots ||| 2 ^ idx } else s

/-- `clear_spe_queue_empty_status`. -/
def clear_spe_queue_empty_status (N : Nat) (s : MailboxState) (idx : Nat) :
    MailboxState :=
  if idx < N then { s with empty_slots := clearBit s.empty_slots idx } else s

/-- `get_spe_queue_empty_status`. -/
def get_spe_queue_empty_status (N : Nat) (s : MailboxState) (idx : Nat) :
    Bool :=
  decide (idx < N) && s.empty_slots.testBit idx

/-- `set_nspe_queue_replied_status` (`replied_slots |= mask`). -/
def set_nspe_queue_replied_status (s : MailboxState) (mask : Nat) :
    MailboxState :=
  { s with replied_slots := s.replied_slots ||| mask }

/-- `clear_nspe_queue_pend_status` (`pend_slots &= ~mask`),
on 32-bit status words. -/
def clear_nspe_queue_pend_status (s : MailboxState) (mask : Nat) :
    MailboxState :=
  { s with pend_slots := s.pend_slots &&& (MASK32 ^^^ (mask &&& MASK32)) }

/-- `get_spe_mailbox_msg_handle`: encode slot index as index + 1
(the `handle` out-pointer is always non-null at the call sites). -/
def get_spe_mailbox_msg_handle (N : Nat) (idx : Nat) : Option Int :=
  if idx ≥ N then none else some ((idx : Int) + 1)

/-- `get_spe_mailbox_msg_idx`: decode a handle to `(uint8_t)(handle - 1)`;
fails (`MAILBOX_INVAL_PARAMS`) only on the null handle.  Note: no range
check against `NUM_MAILBOX_QUEUE_SLOT` is performed by the code. -/
def get_spe_mailbox_msg_idx (handle : Int) : Option Nat :=
  if handle = MAILBOX_MSG_NULL_HANDLE then none
  else some ((handle - 1).emod 256).toNat

/-- `mailbox_clean_queue_slot`: zero the queue entry and mark it empty;
silently a no-op on an out-of-range index. -/
def zero_msg : mailbox_msg_t :=
  { call_type := 0
    params := { psa_call_type := 0, psa_call_in_vec := 0, psa_call_in_len := 0,
                psa_call_out_vec := 0, psa_call_out_len := 0,
                psa_call_handle := 0, psa_version_sid := 0,
                psa_connect_sid := 0, psa_connect_version := 0,
                psa_close_handle := 0 }
    client_id := 0 }

def zero_slot : secure_mailbox_slot_t :=
  { msg := zero_msg, msg_handle := 0, ns_slot_idx := 0 }

def mailbox_clean_queue_slot (N : Nat) (s : MailboxState) (idx : Nat) :
    MailboxState :=
  if idx ≥ N then s
  else
    let s1 := { s with queue := fun j => if j = idx then zero_slot else s.queue j }
    set_spe_queue_empty_status N s1 idx

/-! ### Vector staging (`local_copy_vects`, lines 178-224)

The packed `control` word: its bit layout comes from
`tfm_psa_call_pack.h`, which is outside the sources; the packing is
bijective on the packed fields, so it is modelled as a record. -/

structure control_t where
  ptype : Int
  in_len : Nat
  out_len : Nat
  ns_invec : Bool
  ns_outvec : Bool
  deriving DecidableEq, Repr

def PARAM_PACK (ptype : Int) (in_len out_len : Nat) : control_t :=
  { ptype := ptype, in_len := in_len, out_len := out_len,
    ns_invec := false, ns_outvec := false }

def PARAM_SET_NS_INVEC (c : control_t) : control_t := { c with ns_invec := true }

def PARAM_SET_NS_OUTVEC (c : control_t) : control_t := { c with ns_outvec := true }

/-- `local_copy_vects`: validate and copy the NS caller's descriptor
arrays into the staging entry for `idx`.  Returns the status, the
updated state and the updated control word. -/
def local_copy_vects (params : psa_client_params_t) (idx : Nat)
    (control : control_t) (s : MailboxState) :
    Int × MailboxState × control_t :=
  let in_len := params.psa_call_in_len
  let out_len := params.psa_call_out_len
  if ((params.psa_call_out_vec = 0 ∧ out_len ≠ 0) ∨
      (params.psa_call_in_vec = 0 ∧ in_len ≠ 0)) then
    (MAILBOX_INVAL_PARAMS, s, control)
  else if (in_len > PSA_MAX_IOVEC ∨ out_len > PSA_MAX_IOVEC ∨
           in_len + out_len > PSA_MAX_IOVEC) then
    (MAILBOX_INVAL_PARAMS, s, control)
  else
    let v := s.vectors idx
    let v1 : vectors_t :=
      { v with in_vec := fun i =>
          if i < PSA_MAX_IOVEC then
            (if i < in_len then s.inMem (params.psa_call_in_vec + i)
             else { base := 0, len := 0 })
          else v.in_vec i }
    let v2 : vectors_t :=
      { v1 with out_vec := fun i =>
          if i < PSA_MAX_IOVEC then
            (if i < out_len then s.outMem (params.psa_call_out_vec + i)
             else { base := 0, len := 0 })
          else v1.out_vec i }
    let control1 := PARAM_SET_NS_INVEC control
    let control2 := PARAM_SET_NS_OUTVEC control1
    let v3 : vectors_t :=
      { v2 with out_len := out_len,
                original_out_vec := params.psa_call_out_vec,
                in_use := true }
    (MAILBOX_SUCCESS,
     { s with vectors := fun j => if j = idx then v3 else s.vectors j },
     control2)

/-! ### Reply delivery (`mailbox_direct_reply`, lines 141-166) -/

/-- The write-back loop of `mailbox_direct_reply`:
`for (i = 0; i < out_len; i++) original_out_vec[i].len = out_vec[i].len`,
acting on the NS outvec memory region. -/
def copy_out_lens (v : vectors_t) (mem : Nat → psa_outvec) :
    Nat → (Nat → psa_outvec)
  | 0 => mem
  | k + 1 =>
    let m := copy_out_lens v mem k
    fun a =>
      if a = v.original_out_vec + k then { m a with len := (v.out_vec k).len }
      else m a

/-- `mailbox_direct_reply`: write back output lengths on success, clear
`in_use`, write the result into the NS reply area (panicking —
`psa_panic` in `get_nspe_reply_addr` — on an out-of-range slot or origin
index), then clean the queue slot.  `result` is the `uint32_t` result
word; `result == PSA_SUCCESS` is `result = 0`. -/
def mailbox_direct_reply (N : Nat) (s : MailboxState) (idx : Nat)
    (result : Nat) : Option MailboxState :=
  let v := s.vectors idx
  let s1 :=
    if v.in_use ∧ result = 0 then
      { s with outMem := copy_out_lens v s.outMem v.out_len }
    else s
  let s2 := { s1 with vectors := fun j =>
      if j = idx then { s1.vectors j with in_use := false } else s1.vectors j }
  -- get_nspe_reply_addr (lines 125-139): psa_panic on bad indices
  if idx ≥ N then none
  else
    let ns_idx := (s2.queue idx).ns_slot_idx
    if ns_idx ≥ N ∨ ns_idx ≥ s2.ns_slot_count then none
    else
      let s3 := { s2 with ns_slots := fun j =>
          (if j = ns_idx then { s2.ns_slots j with reply_return_val := result }
           else s2.ns_slots j) }
      some (mailbox_clean_queue_slot N s3 idx)

/-- Outcome of `tfm_mailbox_reply_msg`: either a `psa_panic`, or a return
code together with the final state and whether `tfm_mailbox_hal_notify_peer`
was invoked. -/
inductive ReplyOutcome where
  | panic : ReplyOutcome
  | ret (code : Int) (s : MailboxState) (notified : Bool) : ReplyOutcome

/-- `tfm_mailbox_reply_msg` (lines 409-448). -/
def tfm_mailbox_reply_msg (N : Nat) (s : MailboxState) (handle : Int)
    (reply : Int) : ReplyOutcome :=
  let idxOpt : Option Nat :=
    if handle = MAILBOX_MSG_NULL_HANDLE then some 0
    else get_spe_mailbox_msg_idx handle
  match idxOpt with
  | none => ReplyOutcome.ret MAILBOX_INVAL_PARAMS s false
  | some idx =>
    if get_spe_queue_empty_status N s idx then
      ReplyOutcome.ret MAILBOX_NO_PEND_EVENT s false
    else
      match mailbox_direct_reply N s idx ((reply.emod (2 ^ 32)).toNat) with
      | none => ReplyOutcome.panic
      | some s1 =>
        let s2 := set_nspe_queue_replied_status s1 (2 ^ idx)
        ReplyOutcome.ret MAILBOX_SUCCESS s2 true

/-! ### Dispatch (`tfm_mailbox_dispatch`, lines 230-336)

The RPC layer and the client-id translator are external collaborators
(`tfm_rpc.h`, `tfm_multi_core.h`); they are parameters of the model.
`client_id_translate` returns `none` when
`tfm_multi_core_hal_client_id_translate` reports failure. -/

structure RpcEnv where
  psa_framework_version : Int
  psa_version : Nat → Int
  client_id_translate : Int → Option Int
  psa_call : Int → control_t → Int → Int
  psa_connect : Nat → Nat → Int → Int
  psa_close : Int → Int → Int

/-- `check_mailbox_msg` (lines 168-176): currently always succeeds. -/
def check_mailbox_msg (_ : mailbox_msg_t) : Int := MAILBOX_SUCCESS

/-- The epilogue of `tfm_mailbox_dispatch` (lines 329-335): a synchronous
result sets the slot's reply bit and is returned immediately through
`mailbox_direct_reply`. -/
def dispatch_finish (N : Nat) (s1 : MailboxState) (idx reply_slots : Nat)
    (psa_ret : Int) (sync : Bool) : Option (Int × MailboxState × Nat × Bool) :=
  if sync then
    match mailbox_direct_reply N s1 idx ((psa_ret.emod (2 ^ 32)).toNat) with
    | none => none
    | some s2 => some (MAILBOX_SUCCESS, s2, reply_slots ||| 2 ^ idx, true)
  else some (MAILBOX_SUCCESS, s1, reply_slots, false)

/-- `tfm_mailbox_dispatch`: returns `(ret, state, reply_slots, sync)` or
`none` on a panic inside `mailbox_direct_reply`.
`CONFIG_TFM_SPM_BACKEND_IPC == 1` in the multi-core mailbox build, so
`sync` starts `false` and is escalated on errors. -/
def tfm_mailbox_dispatch (N : Nat) (env : RpcEnv) (s : MailboxState)
    (idx : Nat) (reply_slots : Nat) :
    Option (Int × MailboxState × Nat × Bool) :=
  let msg := (s.queue idx).msg
  let params := msg.params
  let control := PARAM_PACK params.psa_call_type params.psa_call_in_len
      params.psa_call_out_len
  let step : Option (Int × MailboxState × Bool) :=
    if msg.call_type = MAILBOX_PSA_FRAMEWORK_VERSION then
      some (env.psa_framework_version, s, true)
    else if msg.call_type = MAILBOX_PSA_VERSION then
      some (env.psa_version params.psa_version_sid, s, true)
    else if msg.call_type = MAILBOX_PSA_CALL then
      let r := local_copy_vects params idx control s
      if r.1 ≠ MAILBOX_SUCCESS then
        some (PSA_ERROR_INVALID_ARGUMENT, r.2.1, true)
      else
        match env.client_id_translate msg.client_id with
        | none => some (PSA_ERROR_INVALID_ARGUMENT, r.2.1, true)
        | some client_id =>
          let psa_ret := env.psa_call params.psa_call_handle r.2.2 client_id
          some (psa_ret, r.2.1, decide (psa_ret ≠ PSA_SUCCESS))
    else if msg.call_type = MAILBOX_PSA_CONNECT then
      match env.client_id_translate msg.client_id with
      | none => some (PSA_ERROR_INVALID_ARGUMENT, s, true)
      | some client_id =>
        let psa_ret := env.psa_connect params.psa_connect_sid
            params.psa_connect_version client_id
        some (psa_ret, s, decide (psa_ret ≠ PSA_SUCCESS))
    else if msg.call_type = MAILBOX_PSA_CLOSE then
      match env.client_id_translate msg.client_id with
      | none => some (PSA_ERROR_INVALID_ARGUMENT, s, true)
      | some client_id =>
        let psa_ret := env.psa_close params.psa_close_handle client_id
        some (psa_ret, s, decide (psa_ret ≠ PSA_SUCCESS))
    else none
  match step with
  | none => some (MAILBOX_INVAL_PARAMS, s, reply_slots, false)
  | some (psa_ret, s1, sync) => dispatch_finish N s1 idx reply_slots psa_ret sync

/-! ### The drain pass (`tfm_mailbox_handle_msg`, lines 338-407) -/

/-- What a drain pass did to one pending slot (ghost trace). -/
inductive DrainAction where
  | dispatched (idx : Nat) (sync : Bool)
  | cleaned (idx : Nat)
  deriving DecidableEq, Repr

def DrainAction.slot : DrainAction → Nat
  | .dispatched i _ => i
  | .cleaned i => i

/-- Is the action a synchronous completion of the slot? -/
def DrainAction.isSync : DrainAction → Bool
  | .dispatched _ b => b
  | .cleaned _ => false

/-- Lines 372-377: claim the mirrored SPE slot, record the NS origin
slot index and copy the message payload from the NS slot. -/
def drain_claim (N : Nat) (s : MailboxState) (idx : Nat) : MailboxState :=
  let s1 := clear_spe_queue_empty_status N s idx
  let s2 := { s1 with queue := fun j =>
      if j = idx then { s1.queue j with ns_slot_idx := idx } else s1.queue j }
  { s2 with queue := fun j =>
      (if j = idx then { s2.queue j with msg := (s2.ns_slots idx).msg }
       else s2.queue j) }

/-- Lines 383-384: store the encoded handle in the slot (a silent no-op
when `get_spe_mailbox_msg_handle` rejects the index). -/
def drain_set_handle (N : Nat) (s : MailboxState) (idx : Nat) : MailboxState :=
  match get_spe_mailbox_msg_handle N idx with
  | some h => { s with queue := fun j =>
      if j = idx then { s.queue j with msg_handle := h } else s.queue j }
  | none => s

/-- The body of the drain loop for one index whose pending bit is set
(lines 372-389). -/
def drain_one (N : Nat) (env : RpcEnv) (s : MailboxState) (idx : Nat)
    (reply_slots : Nat) : Option (MailboxState × Nat × DrainAction) :=
  let s3 := drain_claim N s idx
  if check_mailbox_msg ((s3.queue idx).msg) ≠ MAILBOX_SUCCESS then
    some (mailbox_clean_queue_slot N s3 idx, reply_slots, DrainAction.cleaned idx)
  else
    let s4 := drain_set_handle N s3 idx
    match tfm_mailbox_dispatch N env s4 idx reply_slots with
    | none => none
    | some (ret, s5, reply', sync) =>
      if ret ≠ MAILBOX_SUCCESS then
        some (mailbox_clean_queue_slot N s5 idx, reply', DrainAction.cleaned idx)
      else some (s5, reply', DrainAction.dispatched idx sync)

/-- The drain loop over slot indices `0 .. ns_slot_count - 1`, skipping
indices whose bit is clear in the `pend` snapshot. -/
def drain_pass (N : Nat) (env : RpcEnv) (pend : Nat) :
    List Nat → MailboxState → Nat → List DrainAction →
    Option (MailboxState × Nat × List DrainAction)
  | [], s, reply_slots, acts => some (s, reply_slots, acts)
  | idx :: rest, s, reply_slots, acts =>
    if pend &&& 2 ^ idx = 0 then drain_pass N env pend rest s reply_slots acts
    else
      match drain_one N env s idx reply_slots with
      | none => none
      | some (s', reply', act) =>
        drain_pass N env pend rest s' reply' (acts ++ [act])

/-- `tfm_mailbox_handle_msg`: snapshot the pending bitmask; if zero return
`MAILBOX_NO_PEND_EVENT`; otherwise drain, then (batched) clear the
snapshot bits from `pend_slots`, set the per-pass `replied_slots` bits
and notify the peer once iff any slot replied synchronously.  The result
carries (return code, state, number of `tfm_mailbox_hal_notify_peer`
invocations, ghost action trace); `none` models a `psa_panic`. -/
def tfm_mailbox_handle_msg (N : Nat) (env : RpcEnv) (s : MailboxState) :
    Option (Int × MailboxState × Nat × List DrainAction) :=
  let pend_slots := s.pend_slots
  if pend_slots = 0 then some (MAILBOX_NO_PEND_EVENT, s, 0, [])
  else
    match drain_pass N env pend_slots (List.range s.ns_slot_count) s 0 [] with
    | none => none
    | some (s1, reply_slots, acts) =>
      let s2 := clear_nspe_queue_pend_status s1 pend_slots
      let s3 := set_nspe_queue_replied_status s2 reply_slots
      some (MAILBOX_SUCCESS, s3, if reply_slots ≠ 0 then 1 else 0, acts)

/-! ### Initialization (`tfm_mailbox_init`, lines 475-505) -/

/-- The two-statement seeding of `empty_slots`:
`(uint32)((1UL << (N-1)) - 1)` then `+= (uint32)(1UL << (N-1))`,
with `uint32_t` wrap-around on the sum. -/
def init_empty_slots (N : Nat) : Nat :=
  let a := ((1 <<< (N - 1)) - 1) % 2 ^ 32
  let b := (1 <<< (N - 1)) % 2 ^ 32
  (a + b) % 2 ^ 32

/-- The state effect of `tfm_mailbox_init` on the secure queue: zero the
whole `spe_mailbox_queue` then seed `empty_slots`.  RPC registration and
`tfm_mailbox_hal_init` are external and do not touch these fields. -/
def tfm_mailbox_init_state (N : Nat) (s : MailboxState) : MailboxState :=
  { s with queue := fun _ => zero_slot,
           ns_slot_count := 0,
           empty_slots := init_empty_slots N }

/-! ## Connection lifecycle manager (`secure_fw/spm/core/psa_connection_api.c`)

The SPM internals it calls (service registry, connection pool,
authorization/version checks, dispatch backend) are outside the sources;
they are parameters of the model (`SpmEnv`), and the connection pool is
the SPM free-list, modelled as the list of free `connection_t` records. -/

/-- `TFM_HANDLE_STATUS_*` from `spm.h`. -/
inductive handle_status where
  | IDLE
  | ACTIVE
  | TO_FREE
  deriving DecidableEq, Repr

/-- Service load info (`service->p_ldinf`): only `flags` is consulted. -/
structure service_t where
  flags : Nat
  deriving DecidableEq, Repr

/-- Modelled from the spec: `SERVICE_IS_STATELESS` tests the stateless
flag bit of the service load flags (`load/service_defs.h` is not under
src/; the bit position is immaterial to the claims). -/
def SERVICE_FLAG_STATELESS_BIT : Nat := 2

def SERVICE_IS_STATELESS (flags : Nat) : Bool :=
  flags.testBit SERVICE_FLAG_STATELESS_BIT

/-- `PSA_IPC_CONNECT` / `PSA_IPC_DISCONNECT` from `psa/client.h`. -/
def PSA_IPC_CONNECT : Int := -1
def PSA_IPC_DISCONNECT : Int := -2

/-- `struct connection_t`: the fields the sources touch. -/
structure connection_t where
  status : handle_status
  service : service_t
  client_id : Int
  msg_type : Int
  deriving DecidableEq, Repr

/-- External SPM collaborators of `spm_psa_connect_client_id_associated`. -/
structure SpmEnv where
  /-- `tfm_spm_get_service_by_sid`. -/
  get_service_by_sid : Nat → Option service_t
  /-- `tfm_spm_check_authorization sid service ns_caller`. -/
  check_authorization : Nat → service_t → Bool → Int
  /-- `tfm_spm_check_client_version service version`. -/
  check_client_version : service_t → Nat → Int

/-- Modelled from the spec: `spm_allocate_connection` pops a connection
from the SPM free-list pool under mutual exclusion (`spm.c` is not under
src/), returning `NULL` (`none`) when the pool is exhausted. -/
def spm_allocate_connection :
    List connection_t → Option (connection_t × List connection_t)
  | [] => none
  | c :: rest => some (c, rest)

/-- Modelled from the spec: `spm_init_idle_connection` initializes the
allocated connection to IDLE, bound to the target service and client id
(`spm.c` is not under src/). -/
def spm_init_idle_connection (c : connection_t) (service : service_t)
    (client_id : Int) : connection_t :=
  { c with status := handle_status.IDLE, service := service,
           client_id := client_id }

/-- `spm_psa_connect_client_id_associated` (lines 40-95): returns the PSA
status, the pool after the call, and the connection handed to the caller
(through `*p_connection`) on success. -/
def spm_psa_connect_client_id_associated (env : SpmEnv)
    (pool : List connection_t) (sid version : Nat) (client_id : Int) :
    Int × List connection_t × Option connection_t :=
  let ns_caller : Bool := client_id < 0
  match env.get_service_by_sid sid with
  | none => (PSA_ERROR_CONNECTION_REFUSED, pool, none)
  | some service =>
    if SERVICE_IS_STATELESS service.flags then
      (PSA_ERROR_PROGRAMMER_ERROR, pool, none)
    else if env.check_authorization sid service ns_caller ≠ PSA_SUCCESS then
      (PSA_ERROR_CONNECTION_REFUSED, pool, none)
    else if env.check_client_version service version ≠ PSA_SUCCESS then
      (PSA_ERROR_CONNECTION_REFUSED, pool, none)
    else
      match spm_allocate_connection pool with
      | none => (PSA_ERROR_CONNECTION_BUSY, pool, none)
      | some (connection, pool') =>
        let c1 := spm_init_idle_connection connection service client_id
        let c2 := { c1 with msg_type := PSA_IPC_CONNECT }
        (PSA_SUCCESS, pool', some c2)

/-- `tfm_spm_client_psa_connect` (lines 20-38).  `client_id` stands for
`tfm_spm_get_client_id(tfm_spm_is_ns_caller())` and `backend_messaging`
for the dispatch backend, both external.  On the success path the code
sets `p_connection->status = TFM_HANDLE_STATUS_ACTIVE` after the forward,
whatever `backend_messaging` returned. -/
def tfm_spm_client_psa_connect (env : SpmEnv)
    (backend_messaging : connection_t → Int) (pool : List connection_t)
    (sid version : Nat) (client_id : Int) :
    Int × List connection_t × Option connection_t :=
  match spm_psa_connect_client_id_associated env pool sid version client_id with
  | (status, pool', pc) =>
    if status ≠ PSA_SUCCESS then (status, pool', pc)
    else
      match pc with
      | some connection =>
        let status2 := backend_messaging connection
        (status2, pool', some { connection with status := handle_status.ACTIVE })
      | none =>
        -- unreachable: the connect helper returns PSA_SUCCESS only with
        -- a connection (in C the uninitialized pointer would be UB)
        (status, pool', none)

/-- Modelled from the spec: `IS_STATIC_HANDLE` tests the static-handle
indicator bit of a `psa_handle_t` (`spm.h` is not under src/). -/
def IS_STATIC_HANDLE (handle : Int) : Bool :=
  ((handle.emod (2 ^ 32)).toNat).testBit 30

/-- State seen by `spm_psa_close_client_id_associated`: the SPM
connection store, addressed by abstract keys. -/
structure CloseState where
  conns : Nat → connection_t

/-- External collaborators of the close path: handle resolution
(`spm_get_idle_connection`, returning a status and, on success, the key
of the resolved connection) and the dispatch backend. -/
structure CloseEnv where
  get_idle_connection : Int → Int → Int × Option Nat
  backend_messaging : connection_t → Int

/-- `spm_psa_close_client_id_associated` (lines 103-134). -/
def spm_psa_close_client_id_associated (env : CloseEnv) (st : CloseState)
    (handle : Int) (client_id : Int) : Int × CloseState :=
  if handle = PSA_NULL_HANDLE then (PSA_SUCCESS, st)
  else if IS_STATIC_HANDLE handle then (PSA_ERROR_PROGRAMMER_ERROR, st)
  else
    match env.get_idle_connection handle client_id with
    | (status, none) => (status, st)
    | (_, some k) =>
      let st1 : CloseState :=
        { conns := fun j =>
            (if j = k then { st.conns j with msg_type := PSA_IPC_DISCONNECT }
             else st.conns j) }
      let status2 := env.backend_messaging (st1.conns k)
      let st2 : CloseState :=
        { conns := fun j =>
            (if j = k then { st1.conns j with status := handle_status.TO_FREE }
             else st1.conns j) }
      (status2, st2)

/-! ## Concrete fixtures used by witnesses and counterexamples -/

/-- An all-zero staging entry. -/
def zero_vectors : vectors_t :=
  { in_vec := fun _ => { base := 0, len := 0 }
    out_vec := fun _ => { base := 0, len := 0 }
    original_out_vec := 0, out_len := 0, in_use := false }

/-- An all-zero mailbox state. -/
def st0 : MailboxState :=
  { empty_slots := 0
    queue := fun _ => zero_slot
    pend_slots := 0
    replied_slots := 0
    ns_slots := fun _ => { msg := zero_msg, reply_return_val := 0 }
    ns_slot_count := 0
    vectors := fun _ => zero_vectors
    inMem := fun _ => { base := 0, len := 0 }
    outMem := fun _ => { base := 0, len := 0 } }

/-! ## Claims -/

/-- A small helper: `1 <<< n = 2 ^ n`. -/
lemma one_shiftLeft_eq_pow (n : Nat) : 1 <<< n = 2 ^ n := by
  simp [Nat.shiftLeft_eq]

/-- C10: after `tfm_mailbox_init` zeroes the queue and seeds the free
bitmask, `empty_slots` equals `2 ^ NUM_MAILBOX_QUEUE_SLOT - 1` reduced
modulo `2 ^ 32` — i.e. exactly the low `N` bits are set — including the
boundary case `N = 32`, because the seed is computed as
`(1 << (N-1)) - 1` plus `1 << (N-1)`. -/
theorem tfm_mailbox_init_empty_slots_low_bits (N : Nat) (s : MailboxState)
    (h1 : 1 ≤ N) (h2 : N ≤ 32) :
    (tfm_mailbox_init_state N s).empty_slots = (2 ^ N - 1) % 2 ^ 32 ∧
    (∀ i, (tfm_mailbox_init_state N s).empty_slots.testBit i =
      decide (i < N)) ∧
    (tfm_mailbox_init_state N s).queue = fun _ => zero_slot := by
  have hmono : 2 ^ (N - 1) ≤ 2147483648 := by
    calc 2 ^ (N - 1) ≤ 2 ^ 31 := Nat.pow_le_pow_right (by norm_num) (by omega)
      _ = 2147483648 := by norm_num
  have hN : 2 ^ N = 2 * 2 ^ (N - 1) := by
    conv_lhs => rw [show N = (N - 1) + 1 by omega]
    rw [Nat.pow_succ]
    ring
  have hval : (tfm_mailbox_init_state N s).empty_slots = 2 ^ N - 1 := by
    show init_empty_slots N = _
    have e : init_empty_slots N =
        ((2 ^ (N - 1) - 1) % 4294967296 + 2 ^ (N - 1) % 4294967296) %
          4294967296 := by
      unfold init_empty_slots
      rw [one_shiftLeft_eq_pow]
      norm_num
    rw [e]
    omega
  have hlt : 2 ^ N - 1 < 2 ^ 32 := by
    have : (2 : Nat) ^ 32 = 4294967296 := by norm_num
    omega
  refine ⟨by rw [hval, Nat.mod_eq_of_lt hlt], fun i => ?_, rfl⟩
  rw [hval, Nat.testBit_two_pow_sub_one]

/-- C10 witness at the boundary case `N = 32`. -/
theorem tfm_mailbox_init_empty_slots_low_bits_witness :
    (1 ≤ 32 ∧ 32 ≤ 32) ∧
    (tfm_mailbox_init_state 32 st0).empty_slots = (2 ^ 32 - 1) % 2 ^ 32 :=
  ⟨⟨by decide, by decide⟩,
   (tfm_mailbox_init_empty_slots_low_bits 32 st0 (by decide) (by decide)).1⟩

/-- C5: a request whose input or output descriptor array is null while its
declared length is nonzero, or whose `in_len`, `out_len` or
`in_len + out_len` exceeds `PSA_MAX_IOVEC`, makes `local_copy_vects`
fail with `MAILBOX_INVAL_PARAMS` and leaves the state (staging entries,
bitmasks — the whole `MailboxState`) and the control word unchanged. -/
theorem local_copy_vects_invalid_unchanged (params : psa_client_params_t)
    (idx : Nat) (control : control_t) (s : MailboxState)
    (h : (params.psa_call_out_vec = 0 ∧ params.psa_call_out_len ≠ 0) ∨
         (params.psa_call_in_vec = 0 ∧ params.psa_call_in_len ≠ 0) ∨
         params.psa_call_in_len > PSA_MAX_IOVEC ∨
         params.psa_call_out_len > PSA_MAX_IOVEC ∨
         params.psa_call_in_len + params.psa_call_out_len > PSA_MAX_IOVEC) :
    local_copy_vects params idx control s = (MAILBOX_INVAL_PARAMS, s, control) := by
  unfold local_copy_vects
  by_cases hnull : (params.psa_call_out_vec = 0 ∧ params.psa_call_out_len ≠ 0) ∨
      (params.psa_call_in_vec = 0 ∧ params.psa_call_in_len ≠ 0)
  · rw [if_pos hnull]
  · rw [if_neg hnull]
    have hsz : params.psa_call_in_len > PSA_MAX_IOVEC ∨
        params.psa_call_out_len > PSA_MAX_IOVEC ∨
        params.psa_call_in_len + params.psa_call_out_len > PSA_MAX_IOVEC := by
      tauto
    rw [if_pos hsz]

/-- C5 witness: a request with `in_len = 3`, `out_len = 2`
(`3 + 2 > PSA_MAX_IOVEC = 4`) is rejected with no state change. -/
theorem local_copy_vects_invalid_unchanged_witness :
    local_copy_vects
      { zero_msg.params with psa_call_in_vec := 100, psa_call_in_len := 3,
                             psa_call_out_vec := 200, psa_call_out_len := 2 }
      0 (PARAM_PACK 0 3 2) st0 =
    (MAILBOX_INVAL_PARAMS, st0, PARAM_PACK 0 3 2) :=
  local_copy_vects_invalid_unchanged _ 0 _ st0 (by
    right; right; right; right
    decide)

/-- C9: closing the null handle returns `PSA_SUCCESS` and changes no
connection/pool state, and doing it twice in succession (any client id)
succeeds both times with the state still unchanged. -/
theorem spm_psa_close_null_handle_idempotent (env : CloseEnv)
    (st : CloseState) (client_id client_id' : Int) :
    spm_psa_close_client_id_associated env st PSA_NULL_HANDLE client_id =
      (PSA_SUCCESS, st) ∧
    spm_psa_close_client_id_associated env
      (spm_psa_close_client_id_associated env st PSA_NULL_HANDLE client_id).2
      PSA_NULL_HANDLE client_id' = (PSA_SUCCESS, st) := by
  constructor <;> rfl

/-- C8: unknown service id refuses without allocating; with all four
checks passing and an exhausted pool, connect returns `ConnectionBusy`
with the pool unchanged; and the pool is touched (or a connection handed
out) only when all four checks have passed. -/
theorem spm_psa_connect_checks_gate_allocation (env : SpmEnv)
    (pool : List connection_t) (sid version : Nat) (client_id : Int) :
    (env.get_service_by_sid sid = none →
      spm_psa_connect_client_id_associated env pool sid version client_id =
        (PSA_ERROR_CONNECTION_REFUSED, pool, none)) ∧
    (∀ service, env.get_service_by_sid sid = some service →
      SERVICE_IS_STATELESS service.flags = false →
      env.check_authorization sid service (decide (client_id < 0)) = PSA_SUCCESS →
      env.check_client_version service version = PSA_SUCCESS →
      pool = [] →
      spm_psa_connect_client_id_associated env pool sid version client_id =
        (PSA_ERROR_CONNECTION_BUSY, pool, none)) ∧
    (∀ r pool' c,
      spm_psa_connect_client_id_associated env pool sid version client_id =
        (r, pool', c) →
      (pool' ≠ pool ∨ c ≠ none) →
      ∃ service, env.get_service_by_sid sid = some service ∧
        SERVICE_IS_STATELESS service.flags = false ∧
        env.check_authorization sid service (decide (client_id < 0)) = PSA_SUCCESS ∧
        env.check_client_version service version = PSA_SUCCESS) := by
  refine ⟨fun hnone => ?_, fun service hsvc hstateless hauth hver hpool => ?_,
    fun r pool' c heq halloc => ?_⟩
  · unfold spm_psa_connect_client_id_associated
    rw [hnone]
  · unfold spm_psa_connect_client_id_associated
    rw [hsvc, hpool]
    simp [hstateless, hauth, hver, spm_allocate_connection]
  · unfold spm_psa_connect_client_id_associated at heq
    cases hsvc : env.get_service_by_sid sid with
    | none =>
      rw [hsvc] at heq
      cases heq
      rcases halloc with h | h <;> exact absurd rfl h
    | some service =>
      rw [hsvc] at heq
      dsimp only at heq
      refine ⟨service, rfl, ?_⟩
      by_cases hstateless : SERVICE_IS_STATELESS service.flags
      · rw [if_pos hstateless] at heq
        cases heq
        rcases halloc with h | h <;> exact absurd rfl h
      · rw [if_neg hstateless] at heq
        by_cases hauth : env.check_authorization sid service
            (decide (client_id < 0)) ≠ PSA_SUCCESS
        · rw [if_pos hauth] at heq
          cases heq
          rcases halloc with h | h <;> exact absurd rfl h
        · rw [if_neg hauth] at heq
          by_cases hver : env.check_client_version service version ≠ PSA_SUCCESS
          · rw [if_pos hver] at heq
            cases heq
            rcases halloc with h | h <;> exact absurd rfl h
          · push_neg at hauth hver
            exact ⟨Bool.eq_false_iff.mpr hstateless, hauth, hver⟩

/-- Fixture service/environment in which every connect check passes. -/
def svcW : service_t := { flags := 0 }

def envW : SpmEnv :=
  { get_service_by_sid := fun _ => some svcW
    check_authorization := fun _ _ _ => PSA_SUCCESS
    check_client_version := fun _ _ => PSA_SUCCESS }

def connW : connection_t :=
  { status := handle_status.IDLE, service := svcW, client_id := 0, msg_type := 0 }

/-- C8 witness: with no service registered, connect refuses and the pool
is untouched; with all checks passing and an empty pool, connect is
busy and the pool stays empty. -/
theorem spm_psa_connect_checks_gate_allocation_witness :
    spm_psa_connect_client_id_associated
        { get_service_by_sid := fun _ => none,
          check_authorization := fun _ _ _ => PSA_SUCCESS,
          check_client_version := fun _ _ => PSA_SUCCESS }
        [connW] 7 1 42 = (PSA_ERROR_CONNECTION_REFUSED, [connW], none) ∧
    spm_psa_connect_client_id_associated envW [] 7 1 42 =
      (PSA_ERROR_CONNECTION_BUSY, [], none) :=
  ⟨(spm_psa_connect_checks_gate_allocation _ [connW] 7 1 42).1 rfl,
   (spm_psa_connect_checks_gate_allocation envW [] 7 1 42).2.1 svcW rfl
     (by decide) rfl rfl rfl⟩

/-- C3 counterexample: every check passes, the pool holds one free
connection, and the dispatch backend rejects the forward with
`PSA_ERROR_GENERIC_ERROR`; `tfm_spm_client_psa_connect` nevertheless
marks the connection ACTIVE (and returns the backend's error). -/
theorem tfm_spm_client_psa_connect_active_despite_error :
    (tfm_spm_client_psa_connect envW (fun _ => PSA_ERROR_GENERIC_ERROR)
        [connW] 5 1 42).1 = PSA_ERROR_GENERIC_ERROR ∧
    ((tfm_spm_client_psa_connect envW (fun _ => PSA_ERROR_GENERIC_ERROR)
        [connW] 5 1 42).2.2.map connection_t.status) =
      some handle_status.ACTIVE := by
  constructor <;> rfl

/-- C3 amended: whenever the connect helper succeeds and allocates a
connection, `tfm_spm_client_psa_connect` sets that connection's status to
ACTIVE after forwarding *unconditionally* — whether or not
`backend_messaging` succeeded — and returns the backend's status. -/
theorem tfm_spm_client_psa_connect_always_active (env : SpmEnv)
    (backend : connection_t → Int) (pool pool' : List connection_t)
    (sid version : Nat) (client_id : Int) (conn : connection_t)
    (h : spm_psa_connect_client_id_associated env pool sid version client_id =
      (PSA_SUCCESS, pool', some conn)) :
    tfm_spm_client_psa_connect env backend pool sid version client_id =
      (backend conn, pool', some { conn with status := handle_status.ACTIVE }) := by
  unfold tfm_spm_client_psa_connect
  rw [h]
  simp

/-- C3 amended witness: with a succeeding backend the connection comes
back ACTIVE, by the amended theorem at a concrete input. -/
theorem tfm_spm_client_psa_connect_always_active_witness :
    tfm_spm_client_psa_connect envW (fun _ => PSA_SUCCESS) [connW] 5 1 42 =
      (PSA_SUCCESS, [],
       some { status := handle_status.ACTIVE, service := svcW,
              client_id := 42, msg_type := PSA_IPC_CONNECT }) :=
  tfm_spm_client_psa_connect_always_active envW (fun _ => PSA_SUCCESS)
    [connW] [] 5 1 42
    { status := handle_status.IDLE, service := svcW, client_id := 42,
      msg_type := PSA_IPC_CONNECT } rfl

/-! Helper lemmas about the write-back loop. -/

lemma copy_out_lens_frame (v : vectors_t) (mem : Nat → psa_outvec) (k : Nat)
    (a : Nat) (ha : a < v.original_out_vec ∨ v.original_out_vec + k ≤ a) :
    copy_out_lens v mem k a = mem a := by
  induction k with
  | zero => rfl
  | succ n ih =>
    unfold copy_out_lens
    dsimp only
    rw [if_neg (by omega)]
    exact ih (by omega)

lemma copy_out_lens_base (v : vectors_t) (mem : Nat → psa_outvec) (k : Nat)
    (a : Nat) : (copy_out_lens v mem k a).base = (mem a).base := by
  induction k with
  | zero => rfl
  | succ n ih =>
    unfold copy_out_lens
    dsimp only
    split
    · exact ih
    · exact ih

lemma copy_out_lens_len_eq (v : vectors_t) (mem : Nat → psa_outvec) (k : Nat)
    (i : Nat) (hi : i < k) :
    (copy_out_lens v mem k (v.original_out_vec + i)).len = (v.out_vec i).len := by
  induction k with
  | zero => omega
  | succ n ih =>
    unfold copy_out_lens
    dsimp only
    by_cases hcase : i = n
    · subst hcase
      rw [if_pos rfl]
    · rw [if_neg (by omega)]
      exact ih (by omega)

/-- C4: for an in-range slot index, whenever
`mailbox_direct_reply idx r` completes (does not panic), the slot's queue
entry is zeroed, the slot's empty bit is set in the secure free bitmask,
and the slot's staging entry is no longer in use — for every result. -/
theorem mailbox_direct_reply_cleans_slot (N : Nat) (s : MailboxState)
    (idx : Nat) (r : Nat) (s' : MailboxState) (hidx : idx < N)
    (h : mailbox_direct_reply N s idx r = some s') :
    s'.queue idx = zero_slot ∧ s'.empty_slots.testBit idx = true ∧
    (s'.vectors idx).in_use = false := by
  have hnge : ¬ idx ≥ N := by omega
  have hclean : ∀ (x : MailboxState),
      (mailbox_clean_queue_slot N x idx).queue idx = zero_slot ∧
      (mailbox_clean_queue_slot N x idx).empty_slots.testBit idx = true := by
    intro x
    unfold mailbox_clean_queue_slot set_spe_queue_empty_status
    rw [if_neg hnge]
    dsimp only
    rw [if_pos hidx]
    refine ⟨?_, ?_⟩
    · dsimp only
      rw [if_pos rfl]
    · simp [Nat.testBit_lor, Nat.testBit_two_pow_self]
  have hvec : ∀ (x : MailboxState),
      (mailbox_clean_queue_slot N x idx).vectors idx = x.vectors idx := by
    intro x
    unfold mailbox_clean_queue_slot set_spe_queue_empty_status
    rw [if_neg hnge]
    dsimp only
    rw [if_pos hidx]
  unfold mailbox_direct_reply at h
  dsimp only at h
  rw [if_neg hnge] at h
  by_cases hio : (s.vectors idx).in_use = true ∧ r = 0
  · rw [if_pos hio] at h
    split at h
    · exact Option.noConfusion h
    · rw [Option.some.injEq] at h
      subst h
      refine ⟨(hclean _).1, (hclean _).2, ?_⟩
      rw [hvec]
      dsimp only
      rw [if_pos rfl]
  · rw [if_neg hio] at h
    split at h
    · exact Option.noConfusion h
    · rw [Option.some.injEq] at h
      subst h
      refine ⟨(hclean _).1, (hclean _).2, ?_⟩
      rw [hvec]
      dsimp only
      rw [if_pos rfl]

/-- Fixture: one pending-capable slot (slot 0, origin slot 0), staging
entry in use with two staged output descriptors. -/
def vecW : vectors_t :=
  { in_vec := fun _ => { base := 0, len := 0 }
    out_vec := fun i => { base := 300 + i, len := 7 + i }
    original_out_vec := 200, out_len := 2, in_use := true }

def stW : MailboxState :=
  { st0 with ns_slot_count := 1,
             vectors := fun j => if j = 0 then vecW else zero_vectors }

/-- C4 witness: slot 0 of `stW`, result 5. -/
theorem mailbox_direct_reply_cleans_slot_witness :
    (0 < 4 ∧ ∃ s', mailbox_direct_reply 4 stW 0 5 = some s') ∧
    ∃ s', mailbox_direct_reply 4 stW 0 5 = some s' ∧
      (s'.queue 0 = zero_slot ∧ s'.empty_slots.testBit 0 = true ∧
       (s'.vectors 0).in_use = false) :=
  ⟨⟨by decide, _, rfl⟩,
   _, rfl, mailbox_direct_reply_cleans_slot 4 stW 0 5 _ (by decide) rfl⟩

lemma mailbox_clean_queue_slot_outMem (N : Nat) (x : MailboxState)
    (idx a : Nat) : (mailbox_clean_queue_slot N x idx).outMem a = x.outMem a := by
  unfold mailbox_clean_queue_slot set_spe_queue_empty_status
  by_cases hge : idx ≥ N
  · rw [if_pos hge]
  · rw [if_neg hge]
    dsimp only
    by_cases hlt : idx < N
    · rw [if_pos hlt]
    · rw [if_neg hlt]

lemma mailbox_clean_queue_slot_vectors (N : Nat) (x : MailboxState)
    (idx j : Nat) : (mailbox_clean_queue_slot N x idx).vectors j = x.vectors j := by
  unfold mailbox_clean_queue_slot set_spe_queue_empty_status
  by_cases hge : idx ≥ N
  · rw [if_pos hge]
  · rw [if_neg hge]
    dsimp only
    by_cases hlt : idx < N
    · rw [if_pos hlt]
    · rw [if_neg hlt]

/-- C6: for a slot whose staging entry is in use, a completing
`mailbox_direct_reply` with a success result writes back exactly the
final lengths of the first `out_len` staged output descriptors into the
caller's original output-descriptor array, in order, touching no NS
outvec memory outside those `out_len` entries; a non-success result
writes nothing back; in both cases `in_use` is cleared. -/
theorem mailbox_direct_reply_writeback (N : Nat) (s : MailboxState)
    (idx : Nat) (r : Nat) (s' : MailboxState)
    (hin : (s.vectors idx).in_use = true)
    (h : mailbox_direct_reply N s idx r = some s') :
    (r = 0 →
      (∀ i, i < (s.vectors idx).out_len →
        (s'.outMem ((s.vectors idx).original_out_vec + i)).len =
          ((s.vectors idx).out_vec i).len ∧
        (s'.outMem ((s.vectors idx).original_out_vec + i)).base =
          (s.outMem ((s.vectors idx).original_out_vec + i)).base) ∧
      (∀ a, a < (s.vectors idx).original_out_vec ∨
            (s.vectors idx).original_out_vec + (s.vectors idx).out_len ≤ a →
        s'.outMem a = s.outMem a)) ∧
    (r ≠ 0 → ∀ a, s'.outMem a = s.outMem a) ∧
    (s'.vectors idx).in_use = false := by
  unfold mailbox_direct_reply at h
  dsimp only at h
  by_cases hr : r = 0
  · rw [if_pos (show (s.vectors idx).in_use = true ∧ r = 0 from ⟨hin, hr⟩)] at h
    subst hr
    split at h
    · exact Option.noConfusion h
    · split at h
      · exact Option.noConfusion h
      · rw [Option.some.injEq] at h
        subst h
        refine ⟨fun _ => ⟨fun i hi => ?_, fun a ha => ?_⟩,
          fun h0 => absurd rfl h0, ?_⟩
        · rw [mailbox_clean_queue_slot_outMem]
          exact ⟨copy_out_lens_len_eq _ _ _ i hi, copy_out_lens_base _ _ _ _⟩
        · rw [mailbox_clean_queue_slot_outMem]
          exact copy_out_lens_frame _ _ _ a ha
        · rw [mailbox_clean_queue_slot_vectors]
          dsimp only
          rw [if_pos rfl]
  · rw [if_neg (show ¬((s.vectors idx).in_use = true ∧ r = 0) from
        fun hc => hr hc.2)] at h
    split at h
    · exact Option.noConfusion h
    · split at h
      · exact Option.noConfusion h
      · rw [Option.some.injEq] at h
        subst h
        refine ⟨fun h0 => absurd h0 hr, fun _ a => ?_, ?_⟩
        · rw [mailbox_clean_queue_slot_outMem]
        · rw [mailbox_clean_queue_slot_vectors]
          dsimp only
          rw [if_pos rfl]

/-- C6 witness: slot 0 of `stW` with a success result; write-backs land
on NS outvec memory at the recorded origin array. -/
theorem mailbox_direct_reply_writeback_witness :
    (stW.vectors 0).in_use = true ∧
    ∃ s', mailbox_direct_reply 4 stW 0 0 = some s' ∧
      (((0 : Nat) = 0 →
        (∀ i, i < (stW.vectors 0).out_len →
          (s'.outMem ((stW.vectors 0).original_out_vec + i)).len =
            ((stW.vectors 0).out_vec i).len ∧
          (s'.outMem ((stW.vectors 0).original_out_vec + i)).base =
            (stW.outMem ((stW.vectors 0).original_out_vec + i)).base) ∧
        (∀ a, a < (stW.vectors 0).original_out_vec ∨
              (stW.vectors 0).original_out_vec + (stW.vectors 0).out_len ≤ a →
          s'.outMem a = stW.outMem a)) ∧
      ((0 : Nat) ≠ 0 → ∀ a, s'.outMem a = stW.outMem a) ∧
      (s'.vectors 0).in_use = false) :=
  ⟨rfl, _, rfl, mailbox_direct_reply_writeback 4 stW 0 0 _ rfl rfl⟩

/-- Return code of a reply outcome (`none` for a panic). -/
def ReplyOutcome.retCode : ReplyOutcome → Option Int
  | ReplyOutcome.panic => none
  | ReplyOutcome.ret c _ _ => some c

/-- `mailbox_direct_reply` panics on an out-of-range slot index. -/
lemma mailbox_direct_reply_oob (N : Nat) (s : MailboxState) (idx : Nat)
    (r : Nat) (hge : N ≤ idx) : mailbox_direct_reply N s idx r = none := by
  unfold mailbox_direct_reply
  dsimp only
  rw [if_pos hge]

/-- C2 counterexample: with `N = 4`, the nonzero handle `6` is malformed
(it decodes to out-of-range index 5), yet `tfm_mailbox_reply_msg` panics
in `get_nspe_reply_addr` instead of failing with `MAILBOX_INVAL_PARAMS`;
and the nonzero malformed handle `257` wraps through the `uint8_t` cast
to index 0 and the call *succeeds*, acting on slot 0. -/
theorem tfm_mailbox_reply_msg_malformed_no_inval_params :
    get_spe_mailbox_msg_idx 6 = some 5 ∧
    ReplyOutcome.retCode (tfm_mailbox_reply_msg 4 st0 6 0) = none ∧
    get_spe_mailbox_msg_idx 257 = some 0 ∧
    ReplyOutcome.retCode (tfm_mailbox_reply_msg 4 stW 257 3) =
      some MAILBOX_SUCCESS :=
  ⟨rfl, rfl, rfl, rfl⟩

/-- C2 amended: for a nonzero handle the decode
`(uint8_t)(handle - 1)` never fails (so `InvalidParams` is never
returned); if the decoded index is in range and the slot's empty bit is
set, the call fails with `MAILBOX_NO_PEND_EVENT` with no state modified
and no peer notification; if the decoded index is out of range, the call
panics instead of returning `InvalidParams`. -/
theorem tfm_mailbox_reply_msg_nonzero_handle (N : Nat) (s : MailboxState)
    (handle : Int) (reply : Int) (hnz : handle ≠ 0) :
    (∃ idx, get_spe_mailbox_msg_idx handle = some idx) ∧
    (∀ idx, get_spe_mailbox_msg_idx handle = some idx →
      (idx < N → s.empty_slots.testBit idx = true →
        tfm_mailbox_reply_msg N s handle reply =
          ReplyOutcome.ret MAILBOX_NO_PEND_EVENT s false) ∧
      (N ≤ idx → tfm_mailbox_reply_msg N s handle reply =
        ReplyOutcome.panic)) := by
  have hnz' : ¬(handle = MAILBOX_MSG_NULL_HANDLE) := hnz
  have hdec : get_spe_mailbox_msg_idx handle =
      some ((handle - 1).emod 256).toNat := by
    unfold get_spe_mailbox_msg_idx
    rw [if_neg hnz']
  refine ⟨⟨_, hdec⟩, fun idx hidx => ⟨fun hlt hbit => ?_, fun hge => ?_⟩⟩
  · unfold tfm_mailbox_reply_msg
    rw [if_neg hnz', hidx]
    dsimp only
    rw [if_pos (show get_spe_queue_empty_status N s idx = true by
      simp [get_spe_queue_empty_status, hlt, hbit])]
  · unfold tfm_mailbox_reply_msg
    rw [if_neg hnz', hidx]
    dsimp only
    rw [if_neg (show ¬(get_spe_queue_empty_status N s idx = true) by
      simp [get_spe_queue_empty_status, Nat.not_lt.mpr hge])]
    rw [mailbox_direct_reply_oob N s idx _ hge]

/-- Fixture: empty bit set on slot 1 only. -/
def stE : MailboxState := { st0 with empty_slots := 2 }

/-- C2 amended witness: handle 2 (slot 1, empty) yields `NoPendingEvent`
with the state untouched; handle 6 (decoded index 5 ≥ 4) panics. -/
theorem tfm_mailbox_reply_msg_nonzero_handle_witness :
    ((2 : Int) ≠ 0 ∧ (6 : Int) ≠ 0) ∧
    tfm_mailbox_reply_msg 4 stE 2 0 =
      ReplyOutcome.ret MAILBOX_NO_PEND_EVENT stE false ∧
    tfm_mailbox_reply_msg 4 st0 6 0 = ReplyOutcome.panic :=
  ⟨⟨by decide, by decide⟩,
   ((tfm_mailbox_reply_msg_nonzero_handle 4 stE 2 0 (by decide)).2 1 rfl).1
     (by decide) (by decide),
   ((tfm_mailbox_reply_msg_nonzero_handle 4 st0 6 0 (by decide)).2 5 rfl).2
     (by decide)⟩

/-! Helper lemmas for the drain pass (claims about
`tfm_mailbox_handle_msg`). -/

lemma lor_two_pow_ne_zero (x i : Nat) : x ||| 2 ^ i ≠ 0 := by
  intro h
  have hb := congrArg (fun y => Nat.testBit y i) h
  simp [Nat.testBit_two_pow_self] at hb

lemma and_two_pow_eq_zero_iff (x i : Nat) :
    x &&& 2 ^ i = 0 ↔ x.testBit i = false := by
  rw [Nat.and_two_pow]
  have hpos : 0 < (2 : Nat) ^ i := pow_pos (by norm_num) i
  cases h : x.testBit i
  · simp
  · simp

lemma clear_spe_queue_empty_status_fields (N : Nat) (s : MailboxState)
    (idx : Nat) :
    (clear_spe_queue_empty_status N s idx).queue = s.queue ∧
    (clear_spe_queue_empty_status N s idx).pend_slots = s.pend_slots ∧
    (clear_spe_queue_empty_status N s idx).ns_slot_count = s.ns_slot_count ∧
    (clear_spe_queue_empty_status N s idx).ns_slots = s.ns_slots := by
  unfold clear_spe_queue_empty_status
  by_cases hlt : idx < N
  · rw [if_pos hlt]
    exact ⟨rfl, rfl, rfl, rfl⟩
  · rw [if_neg hlt]
    exact ⟨rfl, rfl, rfl, rfl⟩

lemma local_copy_vects_fields (p : psa_client_params_t) (idx : Nat)
    (c : control_t) (s : MailboxState) :
    (local_copy_vects p idx c s).2.1.queue = s.queue ∧
    (local_copy_vects p idx c s).2.1.pend_slots = s.pend_slots ∧
    (local_copy_vects p idx c s).2.1.ns_slot_count = s.ns_slot_count := by
  unfold local_copy_vects
  dsimp only
  split
  · exact ⟨rfl, rfl, rfl⟩
  · split
    · exact ⟨rfl, rfl, rfl⟩
    · exact ⟨rfl, rfl, rfl⟩

lemma mailbox_clean_queue_slot_pend_count (N : Nat) (x : MailboxState)
    (idx : Nat) :
    (mailbox_clean_queue_slot N x idx).pend_slots = x.pend_slots ∧
    (mailbox_clean_queue_slot N x idx).ns_slot_count = x.ns_slot_count := by
  unfold mailbox_clean_queue_slot set_spe_queue_empty_status
  by_cases hge : idx ≥ N
  · rw [if_pos hge]
    exact ⟨rfl, rfl⟩
  · rw [if_neg hge]
    dsimp only
    by_cases hlt : idx < N
    · rw [if_pos hlt]
      exact ⟨rfl, rfl⟩
    · rw [if_neg hlt]
      exact ⟨rfl, rfl⟩

lemma mailbox_direct_reply_preserves (N : Nat) (s : MailboxState)
    (idx r : Nat) (s' : MailboxState)
    (h : mailbox_direct_reply N s idx r = some s') :
    s'.pend_slots = s.pend_slots ∧ s'.ns_slot_count = s.ns_slot_count := by
  unfold mailbox_direct_reply at h
  dsimp only at h
  by_cases hio : (s.vectors idx).in_use = true ∧ r = 0
  · rw [if_pos hio] at h
    split at h
    · exact Option.noConfusion h
    · split at h
      · exact Option.noConfusion h
      · rw [Option.some.injEq] at h
        subst h
        exact mailbox_clean_queue_slot_pend_count N _ idx
  · rw [if_neg hio] at h
    split at h
    · exact Option.noConfusion h
    · split at h
      · exact Option.noConfusion h
      · rw [Option.some.injEq] at h
        subst h
        exact mailbox_clean_queue_slot_pend_count N _ idx

lemma mailbox_direct_reply_in_range (N : Nat) (s : MailboxState)
    (idx r : Nat) (h1 : idx < N) (h2 : (s.queue idx).ns_slot_idx = idx)
    (h3 : idx < s.ns_slot_count) :
    ∃ s', mailbox_direct_reply N s idx r = some s' := by
  unfold mailbox_direct_reply
  dsimp only
  have hcc : ¬((s.queue idx).ns_slot_idx ≥ N ∨
      (s.queue idx).ns_slot_idx ≥ s.ns_slot_count) := by
    rw [h2]
    omega
  by_cases hio : (s.vectors idx).in_use = true ∧ r = 0
  · rw [if_pos hio, if_neg (Nat.not_le.mpr h1), if_neg hcc]
    exact ⟨_, rfl⟩
  · rw [if_neg hio, if_neg (Nat.not_le.mpr h1), if_neg hcc]
    exact ⟨_, rfl⟩

lemma dispatch_finish_char (N : Nat) (s s1 : MailboxState)
    (idx reply : Nat) (psa_ret : Int) (sync0 : Bool)
    (hq : s1.queue idx = s.queue idx) (hp : s1.pend_slots = s.pend_slots)
    (hc : s1.ns_slot_count = s.ns_slot_count)
    (h1 : idx < N) (h2 : (s.queue idx).ns_slot_idx = idx)
    (h3 : idx < s.ns_slot_count) :
    ∃ ret s5 rep' sync,
      dispatch_finish N s1 idx reply psa_ret sync0 = some (ret, s5, rep', sync) ∧
      s5.pend_slots = s.pend_slots ∧ s5.ns_slot_count = s.ns_slot_count ∧
      rep' = (if sync = true then reply ||| 2 ^ idx else reply) ∧
      (ret = MAILBOX_SUCCESS ∨
        (ret = MAILBOX_INVAL_PARAMS ∧ sync = false)) := by
  cases sync0 with
  | false =>
    exact ⟨MAILBOX_SUCCESS, s1, reply, false, rfl, hp, hc, rfl, Or.inl rfl⟩
  | true =>
    obtain ⟨s2, hs2⟩ := mailbox_direct_reply_in_range N s1 idx
      ((psa_ret.emod (2 ^ 32)).toNat) h1 (by rw [hq]; exact h2)
      (by rw [hc]; exact h3)
    obtain ⟨hp2, hc2⟩ := mailbox_direct_reply_preserves N s1 idx _ s2 hs2
    refine ⟨MAILBOX_SUCCESS, s2, reply ||| 2 ^ idx, true, ?_,
      hp2.trans hp, hc2.trans hc, rfl, Or.inl rfl⟩
    unfold dispatch_finish
    rw [if_pos rfl, hs2]

lemma tfm_mailbox_dispatch_char (N : Nat) (env : RpcEnv) (s : MailboxState)
    (idx reply : Nat) (h1 : idx < N) (h2 : (s.queue idx).ns_slot_idx = idx)
    (h3 : idx < s.ns_slot_count) :
    ∃ ret s5 rep' sync,
      tfm_mailbox_dispatch N env s idx reply = some (ret, s5, rep', sync) ∧
      s5.pend_slots = s.pend_slots ∧ s5.ns_slot_count = s.ns_slot_count ∧
      rep' = (if sync = true then reply ||| 2 ^ idx else reply) ∧
      (ret = MAILBOX_SUCCESS ∨
        (ret = MAILBOX_INVAL_PARAMS ∧ sync = false)) := by
  unfold tfm_mailbox_dispatch
  dsimp only
  by_cases hct1 : (s.queue idx).msg.call_type = MAILBOX_PSA_FRAMEWORK_VERSION
  · rw [if_pos hct1]
    dsimp only
    exact dispatch_finish_char N s s idx reply _ true rfl rfl rfl h1 h2 h3
  · rw [if_neg hct1]
    by_cases hct2 : (s.queue idx).msg.call_type = MAILBOX_PSA_VERSION
    · rw [if_pos hct2]
      dsimp only
      exact dispatch_finish_char N s s idx reply _ true rfl rfl rfl h1 h2 h3
    · rw [if_neg hct2]
      by_cases hct3 : (s.queue idx).msg.call_type = MAILBOX_PSA_CALL
      · rw [if_pos hct3]
        obtain ⟨hlq, hlp, hlc⟩ := local_copy_vects_fields
          (s.queue idx).msg.params idx
          (PARAM_PACK (s.queue idx).msg.params.psa_call_type
            (s.queue idx).msg.params.psa_call_in_len
            (s.queue idx).msg.params.psa_call_out_len) s
        by_cases hcv : (local_copy_vects (s.queue idx).msg.params idx
            (PARAM_PACK (s.queue idx).msg.params.psa_call_type
              (s.queue idx).msg.params.psa_call_in_len
              (s.queue idx).msg.params.psa_call_out_len) s).1 ≠ MAILBOX_SUCCESS
        · rw [if_pos hcv]
          dsimp only
          exact dispatch_finish_char N s _ idx reply _ true
            (congrFun hlq idx) hlp hlc h1 h2 h3
        · rw [if_neg hcv]
          cases htr : env.client_id_translate (s.queue idx).msg.client_id with
          | none =>
            dsimp only
            exact dispatch_finish_char N s _ idx reply _ true
              (congrFun hlq idx) hlp hlc h1 h2 h3
          | some cid =>
            dsimp only
            exact dispatch_finish_char N s _ idx reply _ _
              (congrFun hlq idx) hlp hlc h1 h2 h3
      · rw [if_neg hct3]
        by_cases hct4 : (s.queue idx).msg.call_type = MAILBOX_PSA_CONNECT
        · rw [if_pos hct4]
          cases htr : env.client_id_translate (s.queue idx).msg.client_id with
          | none =>
            dsimp only
            exact dispatch_finish_char N s s idx reply _ true rfl rfl rfl h1 h2 h3
          | some cid =>
            dsimp only
            exact dispatch_finish_char N s s idx reply _ _ rfl rfl rfl h1 h2 h3
        · rw [if_neg hct4]
          by_cases hct5 : (s.queue idx).msg.call_type = MAILBOX_PSA_CLOSE
          · rw [if_pos hct5]
            cases htr : env.client_id_translate (s.queue idx).msg.client_id with
            | none =>
              dsimp only
              exact dispatch_finish_char N s s idx reply _ true rfl rfl rfl
                h1 h2 h3
            | some cid =>
              dsimp only
              exact dispatch_finish_char N s s idx reply _ _ rfl rfl rfl
                h1 h2 h3
          · rw [if_neg hct5]
            dsimp only
            exact ⟨MAILBOX_INVAL_PARAMS, s, reply, false, rfl, rfl, rfl, rfl,
              Or.inr ⟨rfl, rfl⟩⟩

lemma drain_claim_fields (N : Nat) (s : MailboxState) (idx : Nat) :
    (drain_claim N s idx).pend_slots = s.pend_slots ∧
    (drain_claim N s idx).ns_slot_count = s.ns_slot_count ∧
    ((drain_claim N s idx).queue idx).ns_slot_idx = idx := by
  obtain ⟨hq1, hp1, hc1, hn1⟩ := clear_spe_queue_empty_status_fields N s idx
  unfold drain_claim
  dsimp only
  refine ⟨hp1, hc1, ?_⟩
  rw [if_pos rfl]
  dsimp only
  rw [if_pos rfl]

lemma drain_set_handle_fields (N : Nat) (s : MailboxState) (idx : Nat) :
    (drain_set_handle N s idx).pend_slots = s.pend_slots ∧
    (drain_set_handle N s idx).ns_slot_count = s.ns_slot_count ∧
    ((drain_set_handle N s idx).queue idx).ns_slot_idx =
      (s.queue idx).ns_slot_idx := by
  unfold drain_set_handle
  cases hgh : get_spe_mailbox_msg_handle N idx with
  | none => exact ⟨rfl, rfl, rfl⟩
  | some h =>
    refine ⟨rfl, rfl, ?_⟩
    dsimp only
    rw [if_pos rfl]

lemma drain_one_char (N : Nat) (env : RpcEnv) (s : MailboxState)
    (idx reply : Nat) (h1 : idx < N) (h3 : idx < s.ns_slot_count) :
    ∃ s' reply' act,
      drain_one N env s idx reply = some (s', reply', act) ∧
      s'.pend_slots = s.pend_slots ∧ s'.ns_slot_count = s.ns_slot_count ∧
      DrainAction.slot act = idx ∧
      reply' = (if DrainAction.isSync act = true then reply ||| 2 ^ idx
                else reply) := by
  obtain ⟨hp3, hc3, hq3⟩ := drain_claim_fields N s idx
  obtain ⟨hp4, hc4, hq4⟩ := drain_set_handle_fields N (drain_claim N s idx) idx
  unfold drain_one
  dsimp only
  simp only [check_mailbox_msg]
  rw [if_neg (show ¬(MAILBOX_SUCCESS ≠ MAILBOX_SUCCESS) from fun hcc => hcc rfl)]
  obtain ⟨ret, s5, rep', sync, hd, hp5, hc5, hrep, hret⟩ :=
    tfm_mailbox_dispatch_char N env
      (drain_set_handle N (drain_claim N s idx) idx) idx reply h1
      (by rw [hq4, hq3]) (by rw [hc4, hc3]; exact h3)
  rw [hd]
  dsimp only
  rcases hret with hok | ⟨hinval, hsync⟩
  · rw [if_neg (show ¬(ret ≠ MAILBOX_SUCCESS) from fun hcc => hcc hok)]
    exact ⟨s5, rep', DrainAction.dispatched idx sync, rfl,
      hp5.trans (hp4.trans hp3), hc5.trans (hc4.trans hc3), rfl, hrep⟩
  · rw [if_pos (show ret ≠ MAILBOX_SUCCESS by rw [hinval]; decide)]
    obtain ⟨hcp, hcc2⟩ := mailbox_clean_queue_slot_pend_count N s5 idx
    refine ⟨_, rep', DrainAction.cleaned idx, rfl,
      hcp.trans (hp5.trans (hp4.trans hp3)),
      hcc2.trans (hc5.trans (hc4.trans hc3)), rfl, ?_⟩
    rw [hrep, hsync]
    rfl

lemma drain_pass_char (N : Nat) (env : RpcEnv) (pend : Nat)
    (idxs : List Nat) :
    ∀ (s : MailboxState) (reply : Nat) (acts : List DrainAction),
      idxs.Nodup →
      (∀ i ∈ idxs, i < N ∧ i < s.ns_slot_count) →
      ∃ s' reply' newActs,
        drain_pass N env pend idxs s reply acts =
          some (s', reply', acts ++ newActs) ∧
        s'.pend_slots = s.pend_slots ∧
        s'.ns_slot_count = s.ns_slot_count ∧
        (∀ a ∈ newActs, DrainAction.slot a ∈ idxs ∧
          pend.testBit (DrainAction.slot a) = true) ∧
        (∀ i, (newActs.filter (fun a => DrainAction.slot a == i)).length =
          if i ∈ idxs ∧ pend.testBit i = true then 1 else 0) ∧
        (reply' ≠ 0 ↔ reply ≠ 0 ∨ ∃ a ∈ newActs,
          DrainAction.isSync a = true) := by
  induction idxs with
  | nil =>
    intro s reply acts _ _
    exact ⟨s, reply, [], by simp [drain_pass], rfl, rfl, by simp, by simp,
      by simp⟩
  | cons idx rest ih =>
    intro s reply acts hnd hbound
    have hrest : rest.Nodup := hnd.of_cons
    have hnotmem : idx ∉ rest := (List.nodup_cons.mp hnd).1
    unfold drain_pass
    by_cases hbit : pend &&& 2 ^ idx = 0
    · rw [if_pos hbit]
      have hbitF : pend.testBit idx = false :=
        (and_two_pow_eq_zero_iff pend idx).mp hbit
      obtain ⟨s', reply', newActs, hdp, hp, hc, hmem, hcnt, hiff⟩ :=
        ih s reply acts hrest
          (fun i hi => hbound i (List.mem_cons_of_mem _ hi))
      refine ⟨s', reply', newActs, hdp, hp, hc, fun a ha => ?_,
        fun i => ?_, hiff⟩
      · obtain ⟨hm, hb⟩ := hmem a ha
        exact ⟨List.mem_cons_of_mem _ hm, hb⟩
      · rw [hcnt i]
        by_cases hi : i = idx
        · subst hi
          simp [hbitF]
        · simp [List.mem_cons, hi]
    · rw [if_neg hbit]
      have hbitT : pend.testBit idx = true := by
        cases hb : pend.testBit idx
        · exact absurd ((and_two_pow_eq_zero_iff pend idx).mpr hb) hbit
        · rfl
      obtain ⟨hN1, hC1⟩ := hbound idx (List.mem_cons_self idx rest)
      obtain ⟨s1, reply1, act, hone, hp1, hc1, hslot, hrep1⟩ :=
        drain_one_char N env s idx reply hN1 hC1
      rw [hone]
      dsimp only
      obtain ⟨s', reply', newActs, hdp, hp, hc, hmem, hcnt, hiff⟩ :=
        ih s1 reply1 (acts ++ [act]) hrest
          (fun i hi => ⟨(hbound i (List.mem_cons_of_mem _ hi)).1,
            by rw [hc1]; exact (hbound i (List.mem_cons_of_mem _ hi)).2⟩)
      refine ⟨s', reply', act :: newActs, ?_, hp.trans hp1, hc.trans hc1,
        fun a ha => ?_, fun i => ?_, ?_⟩
      · rw [show acts ++ act :: newActs = (acts ++ [act]) ++ newActs by simp]
        exact hdp
      · rcases List.mem_cons.mp ha with rfl | ha'
        · exact ⟨by rw [hslot]; exact List.mem_cons_self _ _,
            by rw [hslot]; exact hbitT⟩
        · obtain ⟨hm, hb⟩ := hmem a ha'
          exact ⟨List.mem_cons_of_mem _ hm, hb⟩
      · by_cases hi : i = idx
        · rw [List.filter_cons_of_pos (by simp [hslot, hi]),
            List.length_cons, hcnt i,
            if_neg (fun hcon => hnotmem (hi ▸ hcon.1))]
          simp [List.mem_cons, hi, hbitT]
        · rw [List.filter_cons_of_neg (by simp [hslot]; omega), hcnt i]
          simp [List.mem_cons, hi]
      · rw [hiff]
        cases hsy : DrainAction.isSync act
        · have hr1 : reply1 = reply := by
            rw [hrep1, hsy]
            rfl
          rw [hr1]
          refine ⟨fun h => ?_, fun h => ?_⟩
          · rcases h with h | ⟨a, ha, hs⟩
            · exact Or.inl h
            · exact Or.inr ⟨a, List.mem_cons_of_mem _ ha, hs⟩
          · rcases h with h | ⟨a, ha, hs⟩
            · exact Or.inl h
            · rcases List.mem_cons.mp ha with rfl | ha'
              · rw [hsy] at hs
                exact absurd hs (by simp)
              · exact Or.inr ⟨a, ha', hs⟩
        · have hr1 : reply1 = reply ||| 2 ^ idx := by
            rw [hrep1, hsy]
            rfl
          rw [hr1]
          exact iff_of_true (Or.inl (lor_two_pow_ne_zero reply idx))
            (Or.inr ⟨act, List.mem_cons_self _ _, hsy⟩)

/-- The batched clear removes every bit of the snapshot (32-bit status
words). -/
lemma clear_pend_snapshot_zero (x pend : Nat) (hx : x = pend) :
    x &&& (MASK32 ^^^ (pend &&& MASK32)) = 0 := by
  subst hx
  apply Nat.eq_of_testBit_eq
  intro i
  rw [Nat.testBit_and, Nat.testBit_xor, Nat.testBit_and]
  rw [show MASK32 = 2 ^ 32 - 1 from rfl, Nat.testBit_two_pow_sub_one]
  cases hp : x.testBit i <;> cases hd : decide (i < 32) <;> simp [hp, hd]

/-- C1 amended: in a drain pass over a nonzero snapshot (with the NS slot
count within the SPE queue capacity), every snapshot bit at an index
below `ns_slot_count` is acted on exactly once — its slot dispatched or
cleaned — no other slot is acted on, and the batched clear leaves the
shared pending status empty (so bits at indices ≥ `ns_slot_count`, if
any, are cleared without having been drained). -/
theorem tfm_mailbox_handle_msg_exactly_once (N : Nat) (env : RpcEnv)
    (s : MailboxState) (hcN : s.ns_slot_count ≤ N)
    (hpend : s.pend_slots ≠ 0) :
    ∃ s' n acts,
      tfm_mailbox_handle_msg N env s = some (MAILBOX_SUCCESS, s', n, acts) ∧
      (∀ i, i < s.ns_slot_count →
        (acts.filter (fun a => DrainAction.slot a == i)).length =
          (if s.pend_slots.testBit i = true then 1 else 0)) ∧
      (∀ a ∈ acts, DrainAction.slot a < s.ns_slot_count ∧
        s.pend_slots.testBit (DrainAction.slot a) = true) ∧
      s'.pend_slots = 0 := by
  obtain ⟨s1, reply', newActs, hdp, hp, hc, hmem, hcnt, hiff⟩ :=
    drain_pass_char N env s.pend_slots (List.range s.ns_slot_count) s 0 []
      (List.nodup_range _)
      (fun i hi => ⟨lt_of_lt_of_le (List.mem_range.mp hi) hcN,
        List.mem_range.mp hi⟩)
  unfold tfm_mailbox_handle_msg
  dsimp only
  rw [if_neg hpend, hdp]
  dsimp only
  refine ⟨_, _, _, rfl, fun i hi => ?_, fun a ha => ?_, ?_⟩
  · rw [show (([] : List DrainAction) ++ newActs) = newActs from rfl, hcnt i]
    simp [List.mem_range, hi]
  · rw [show (([] : List DrainAction) ++ newActs) = newActs from rfl] at ha
    obtain ⟨hm, hb⟩ := hmem a ha
    exact ⟨List.mem_range.mp hm, hb⟩
  · show (set_nspe_queue_replied_status
      (clear_nspe_queue_pend_status s1 s.pend_slots) reply').pend_slots = 0
    unfold set_nspe_queue_replied_status clear_nspe_queue_pend_status
    dsimp only
    exact clear_pend_snapshot_zero _ _ hp

/-- An environment for witnesses: every external collaborator succeeds. -/
def envD : RpcEnv :=
  { psa_framework_version := 257
    psa_version := fun _ => 1
    client_id_translate := fun _ => some (-5)
    psa_call := fun _ _ _ => PSA_SUCCESS
    psa_connect := fun _ _ _ => PSA_SUCCESS
    psa_close := fun _ _ => PSA_SUCCESS }

/-- Fixture for the C1 counterexample: one NS slot, but the (untrusted)
NS side has set pending bit 3, beyond `ns_slot_count = 1`. -/
def stC1 : MailboxState := { st0 with ns_slot_count := 1, pend_slots := 8 }

/-- C1 counterexample: snapshot bit 3 is set, the pass succeeds with an
empty action trace (no slot is dispatched or cleaned), yet the batched
clear wipes the whole snapshot: bit 3 is cleared from the shared pending
status without its slot ever having been drained. -/
theorem tfm_mailbox_handle_msg_clears_undrained_bit :
    stC1.pend_slots.testBit 3 = true ∧
    (tfm_mailbox_handle_msg 4 envD stC1).map
      (fun r => (r.1, r.2.2.1, r.2.2.2, r.2.1.pend_slots)) =
      some (MAILBOX_SUCCESS, 0, [], 0) :=
  ⟨by decide, rfl⟩

/-- Fixture: slot 0 pending with a framework-version query deposited in
NS slot 0 (a synchronous call type). -/
def msgFV : mailbox_msg_t :=
  { zero_msg with call_type := MAILBOX_PSA_FRAMEWORK_VERSION }

def stD : MailboxState :=
  { st0 with ns_slot_count := 1, pend_slots := 1,
             ns_slots := fun _ => { msg := msgFV, reply_return_val := 0 } }

/-- C1 amended witness: with slot 0 pending and a synchronous message,
the pass acts on slot 0 exactly once and clears the snapshot. -/
theorem tfm_mailbox_handle_msg_exactly_once_witness :
    (stD.ns_slot_count ≤ 4 ∧ stD.pend_slots ≠ 0) ∧
    ∃ s' n acts,
      tfm_mailbox_handle_msg 4 envD stD = some (MAILBOX_SUCCESS, s', n, acts) ∧
      (∀ i, i < stD.ns_slot_count →
        (acts.filter (fun a => DrainAction.slot a == i)).length =
          (if stD.pend_slots.testBit i = true then 1 else 0)) ∧
      (∀ a ∈ acts, DrainAction.slot a < stD.ns_slot_count ∧
        stD.pend_slots.testBit (DrainAction.slot a) = true) ∧
      s'.pend_slots = 0 :=
  ⟨⟨by decide, by decide⟩,
   tfm_mailbox_handle_msg_exactly_once 4 envD stD (by decide) (by decide)⟩

/-- C7: with a zero pending snapshot the drain returns `NoPendingEvent`
immediately, without touching state or notifying the peer; with a
nonzero snapshot the pass succeeds and the peer-notification primitive
is invoked exactly once iff some slot completed synchronously in the
pass, and zero times iff no slot did. -/
theorem tfm_mailbox_handle_msg_notify_once (N : Nat) (env : RpcEnv)
    (s : MailboxState) (hcN : s.ns_slot_count ≤ N) :
    (s.pend_slots = 0 →
      tfm_mailbox_handle_msg N env s =
        some (MAILBOX_NO_PEND_EVENT, s, 0, [])) ∧
    (s.pend_slots ≠ 0 →
      ∃ s' n acts,
        tfm_mailbox_handle_msg N env s = some (MAILBOX_SUCCESS, s', n, acts) ∧
        (n = 1 ↔ ∃ a ∈ acts, DrainAction.isSync a = true) ∧
        (n = 0 ↔ ∀ a ∈ acts, DrainAction.isSync a = false)) := by
  constructor
  · intro hz
    unfold tfm_mailbox_handle_msg
    dsimp only
    rw [if_pos hz]
  · intro hpend
    obtain ⟨s1, reply', newActs, hdp, hp, hc, hmem, hcnt, hiff⟩ :=
      drain_pass_char N env s.pend_slots (List.range s.ns_slot_count) s 0 []
        (List.nodup_range _)
        (fun i hi => ⟨lt_of_lt_of_le (List.mem_range.mp hi) hcN,
          List.mem_range.mp hi⟩)
    unfold tfm_mailbox_handle_msg
    dsimp only
    rw [if_neg hpend, hdp]
    dsimp only
    refine ⟨_, _, _, rfl, ?_, ?_⟩
    · by_cases hr : reply' ≠ 0
      · rw [if_pos hr]
        exact iff_of_true rfl ((hiff.mp hr).resolve_left (fun hh => hh rfl))
      · rw [if_neg hr]
        exact iff_of_false (by decide)
          (fun hex => hr (hiff.mpr (Or.inr hex)))
    · by_cases hr : reply' ≠ 0
      · rw [if_pos hr]
        obtain ⟨a, ha, hs⟩ := (hiff.mp hr).resolve_left (fun hh => hh rfl)
        refine iff_of_false (by decide) (fun hall => ?_)
        rw [hall a ha] at hs
        exact Bool.noConfusion hs
      · rw [if_neg hr]
        refine iff_of_true rfl (fun a ha => ?_)
        cases hsa : DrainAction.isSync a
        · rfl
        · exact absurd (hiff.mpr (Or.inr ⟨a, ha, hsa⟩)) hr

/-- C7 witness: slot 0 pending with a synchronous framework-version
query; the pass notifies exactly once. -/
theorem tfm_mailbox_handle_msg_notify_once_witness :
    (stD.ns_slot_count ≤ 4 ∧ stD.pend_slots ≠ 0) ∧
    ∃ s' n acts,
      tfm_mailbox_handle_msg 4 envD stD = some (MAILBOX_SUCCESS, s', n, acts) ∧
      (n = 1 ↔ ∃ a ∈ acts, DrainAction.isSync a = true) ∧
      (n = 0 ↔ ∀ a ∈ acts, DrainAction.isSync a = false) :=
  ⟨⟨by decide, by decide⟩,
   (tfm_mailbox_handle_msg_notify_once 4 envD stD (by decide)).2 (by decide)⟩

end TFM
